import Mathlib

/-!
Verification of the image-search event pipeline (subject parsing, eligibility
filtering, enrichment orchestration, document identity, index writer/reader
field usage, and the HTTP query endpoint) against its specification.

The Python sources are shallowly embedded as pure Lean functions.  Ambient
process state (environment variables) and the outcomes of outbound HTTP calls
are passed in as explicit arguments; Python exceptions are modelled with
`Except`.  Float values are never computed on by the pipeline (vectors are
only carried from the embedding service to the index), so vector entries are
modelled by the opaque carrier type `Int`.  Python string splitting is
modelled by a structural splitter on `List Char`, which agrees with
`str.split(sep)` for the single-character separators used by the source.
-/

namespace ImageSearch

/-- Truthiness of an optional environment variable in Python: `not x` is true
when the variable is unset or the empty string. -/
def pyFalsy (o : Option String) : Bool :=
  match o with
  | none => true
  | some s => decide (s = "")

/-- Whether an `Except` value is a success (no exception was raised). -/
def exceptOk {ε α : Type} : Except ε α → Bool
  | .ok _ => true
  | .error _ => false

/-- Model of Python `s.split(sep)` for a one-character separator: splits at
every occurrence of `sep`, keeping empty pieces; the empty string yields
`[[]]`, matching Python. -/
def pySplitChar (sep : Char) : List Char → List (List Char)
  | [] => [[]]
  | c :: cs =>
    match pySplitChar sep cs with
    | [] => [[]]
    | g :: gs => if c = sep then [] :: g :: gs else (c :: g) :: gs

/-- Model of Python `sep.join(pieces)` for a one-character separator. -/
def pyJoinChar (sep : Char) : List (List Char) → List Char
  | [] => []
  | [g] => g
  | g :: gs => g ++ sep :: pyJoinChar sep gs

/-- Model of Python `list.index`: index of the first occurrence.  The source
only calls it after a membership test, so the out-of-range behaviour (here:
returning the length) is never exercised. -/
def pyIndex {α : Type} [DecidableEq α] (a : α) : List α → Nat
  | [] => 0
  | x :: xs => if x = a then 0 else pyIndex a xs + 1

/-- Embedding of `extract_blob_url_from_subject` (src/functions.py:29-57).
The `AZURE_STORAGE_ACCOUNT_NAME` environment variable is passed in as
`storage_account`. -/
def extract_blob_url_from_subject (storage_account : Option String)
    (subject : String) : Except String String :=
  if subject = "" then .error "Event subject is empty"
  else
    let parts := pySplitChar '/' subject.toList
    if parts.length < 6 ∨ "containers".toList ∉ parts ∨ "blobs".toList ∉ parts then
      .error ("Invalid subject format: " ++ subject)
    else
      let container_idx := pyIndex "containers".toList parts
      let blob_idx := pyIndex "blobs".toList parts
      if parts.length ≤ container_idx + 1 ∨ parts.length ≤ blob_idx + 1 then
        .error ("Cannot extract container or blob from subject: " ++ subject)
      else if pyFalsy storage_account then
        .error "AZURE_STORAGE_ACCOUNT_NAME environment variable must be set"
      else
        let container_name := String.mk (parts.getD (container_idx + 1) [])
        let blob_name := String.mk (pyJoinChar '/' (parts.drop (blob_idx + 1)))
        .ok ("https://" ++ storage_account.getD "" ++ ".blob.core.windows.net/"
          ++ container_name ++ "/" ++ blob_name)

/-- Characters of the input up to (excluding) the first occurrence of `sep`. -/
def takeUntilChar (sep : Char) : List Char → List Char
  | [] => []
  | c :: cs => if c = sep then [] else c :: takeUntilChar sep cs

/-- Characters of the input after the first occurrence of `sep`, or `none`
when `sep` does not occur. -/
def dropPastChar (sep : Char) : List Char → Option (List Char)
  | [] => none
  | c :: cs => if c = sep then some cs else dropPastChar sep cs

/-- Characters after the first occurrence of the three-character scheme
separator `://`, or `none` when it does not occur. -/
def dropPastSchemeSep : List Char → Option (List Char)
  | ':' :: '/' :: '/' :: rest => some rest
  | _ :: cs => dropPastSchemeSep cs
  | [] => none

/-- Model of Python `urllib.parse.urlparse(url).path` for the URL shapes this
repository handles (absolute http(s) URLs and plain path strings): the
fragment (first `#`) and query (first `?`) are stripped, then the scheme and
network location (everything through `://` and up to the next `/`) are
stripped; what remains, with its leading `/`, is the path.  Splitting of
`;`-parameters from the last segment is not modelled. -/
def urlparse_path (url : String) : List Char :=
  let noFrag := takeUntilChar '#' url.toList
  let noQuery := takeUntilChar '?' noFrag
  match dropPastSchemeSep noQuery with
  | none => noQuery
  | some rest =>
    match dropPastChar '/' rest with
    | none => []
    | some p => '/' :: p

/-- Model of Python `str.lower` on the basic latin range (the only characters
that can match the ASCII extension allow-set). -/
def pyLower (l : List Char) : List Char := l.map Char.toLower

/-- The fixed allow-set of image extensions (src/functions.py:223). -/
def image_extensions : List (List Char) :=
  ["jpg".toList, "jpeg".toList, "png".toList, "gif".toList,
   "bmp".toList, "webp".toList, "tiff".toList, "tif".toList]

/-- Embedding of `is_image_file` (src/functions.py:219-224): the extension is
`path.lower().split('.')[-1]` when the path contains a dot, and the empty
string otherwise; the result is membership in the fixed allow-set. -/
def is_image_file (url : String) : Bool :=
  let path := urlparse_path url
  let ext := if '.' ∈ path then (pySplitChar '.' (pyLower path)).getLastD []
             else []
  decide (ext ∈ image_extensions)

/-- Eligibility as worded by the specification: the lower-cased substring of
the URL path after the last `.` is in the fixed extension set, and a path
with no `.` is never eligible. -/
def claim_is_eligible (url : String) : Bool :=
  let path := urlparse_path url
  let ext := pyLower (path.rtakeWhile (fun c => decide (c ≠ '.')))
  decide ('.' ∈ path) && decide (ext ∈ image_extensions)

/-! SHA-1 and name-based (version 5) UUIDs, as used by `generate_document_id`
(src/function_app/search.py:18-20) via Python `uuid.uuid5`.  Machine words are
`Nat` reduced modulo `2 ^ 32` where overflow matters. -/

/-- Left rotation of a 32-bit word (input assumed below `2 ^ 32`). -/
def rotl32 (k n : Nat) : Nat :=
  (n * 2 ^ k + n / 2 ^ (32 - k)) % 4294967296

/-- Big-endian bytes of a 32-bit word. -/
def beBytes4 (n : Nat) : List Nat :=
  [n / 16777216 % 256, n / 65536 % 256, n / 256 % 256, n % 256]

/-- Big-endian bytes of a 64-bit word. -/
def beBytes8 (n : Nat) : List Nat :=
  beBytes4 (n / 4294967296) ++ beBytes4 (n % 4294967296)

/-- SHA-1 message padding: append `0x80`, zero bytes, and the 64-bit
big-endian bit length, to a multiple of 64 bytes. -/
def sha1pad (msg : List Nat) : List Nat :=
  let len := msg.length
  let zeros := (64 - (len + 9) % 64) % 64
  msg ++ [128] ++ List.replicate zeros 0 ++ beBytes8 (8 * len)

/-- Group a byte list into big-endian 32-bit words. -/
def beWords : List Nat → List Nat
  | a :: b :: c :: d :: rest => (((a * 256 + b) * 256 + c) * 256 + d) :: beWords rest
  | _ => []

/-- Split a word list into 16-word blocks. -/
def toBlocks (ws : List Nat) : List (List Nat) :=
  match ws with
  | [] => []
  | w :: rest => (w :: rest).take 16 :: toBlocks ((w :: rest).drop 16)
termination_by ws.length
decreasing_by simp_all [List.length_drop]; omega

/-- Working state of the SHA-1 compression function. -/
structure Sha1State where
  a : Nat
  b : Nat
  c : Nat
  d : Nat
  e : Nat
deriving DecidableEq

/-- Round function of SHA-1 (bitwise complement written as xor with the
32-bit all-ones mask). -/
def sha1f (t b c d : Nat) : Nat :=
  if t < 20 then (b &&& c) ||| ((b ^^^ 4294967295) &&& d)
  else if t < 40 then (b ^^^ c) ^^^ d
  else if t < 60 then (b &&& c) ||| (b &&& d) ||| (c &&& d)
  else (b ^^^ c) ^^^ d

/-- Round constants of SHA-1. -/
def sha1k (t : Nat) : Nat :=
  if t < 20 then 1518500249
  else if t < 40 then 1859775393
  else if t < 60 then 2400959708
  else 3395469782

/-- Expansion of a 16-word block to the 80-word message schedule. -/
def sha1schedule (block : List Nat) : Array Nat :=
  (List.range 64).foldl
    (fun w _ =>
      w.push (rotl32 1 ((w.getD (w.size - 3) 0 ^^^ w.getD (w.size - 8) 0)
        ^^^ (w.getD (w.size - 14) 0 ^^^ w.getD (w.size - 16) 0))))
    block.toArray

/-- SHA-1 compression of one 16-word block into the running state. -/
def sha1block (h : Sha1State) (block : List Nat) : Sha1State :=
  let w := sha1schedule block
  let st := (List.range 80).foldl
    (fun (st : Sha1State) t =>
      let temp := (rotl32 5 st.a + sha1f t st.b st.c st.d + st.e + sha1k t
        + w.getD t 0) % 4294967296
      ⟨temp, st.a, rotl32 30 st.b, st.c, st.d⟩) h
  ⟨(h.a + st.a) % 4294967296, (h.b + st.b) % 4294967296,
   (h.c + st.c) % 4294967296, (h.d + st.d) % 4294967296,
   (h.e + st.e) % 4294967296⟩

/-- SHA-1 digest (20 bytes) of a byte list. -/
def sha1 (msg : List Nat) : List Nat :=
  let blocks := toBlocks (beWords (sha1pad msg))
  let final := blocks.foldl sha1block
    ⟨1732584193, 4023233417, 2562383102, 271733878, 3285377520⟩
  beBytes4 final.a ++ beBytes4 final.b ++ beBytes4 final.c
    ++ beBytes4 final.d ++ beBytes4 final.e

/-- Lower-case hexadecimal digit. -/
def hexDigit (n : Nat) : Char :=
  if n < 10 then Char.ofNat (48 + n) else Char.ofNat (87 + n)

/-- Two-digit lower-case hexadecimal rendering of a byte. -/
def byteHex (b : Nat) : List Char :=
  [hexDigit (b / 16), hexDigit (b % 16)]

/-- Hexadecimal rendering of a byte list. -/
def bytesHex (bs : List Nat) : List Char :=
  (bs.map byteHex).flatten

/-- UTF-8 bytes of a string, as Python `str.encode('utf-8')`. -/
def utf8Bytes (s : String) : List Nat :=
  s.toUTF8.toList.map (fun b => b.toNat)

/-- Version-5 (SHA-1, name-based) UUID over given namespace and name bytes,
rendered canonically (8-4-4-4-12 lower-case hex with dashes), as Python
`uuid.uuid5`. -/
def uuid5 (namespaceBytes nameBytes : List Nat) : String :=
  let d := (sha1 (namespaceBytes ++ nameBytes)).take 16
  let b6 := (d.getD 6 0 &&& 15) ||| 80
  let b8 := (d.getD 8 0 &&& 63) ||| 128
  let bs := d.take 6 ++ [b6, d.getD 7 0, b8] ++ (d.drop 9).take 7
  String.mk (bytesHex (bs.take 4) ++ '-' :: bytesHex ((bs.drop 4).take 2)
    ++ '-' :: bytesHex ((bs.drop 6).take 2) ++ '-' :: bytesHex ((bs.drop 8).take 2)
    ++ '-' :: bytesHex (bs.drop 10))

/-- Bytes of `IMAGE_NAMESPACE = uuid.UUID('6ba7b810-9dad-11d1-80b4-00c04fd430c8')`
(src/function_app/search.py:15). -/
def IMAGE_NAMESPACE_BYTES : List Nat :=
  [107, 167, 184, 16, 157, 173, 17, 209, 128, 180, 0, 192, 79, 212, 48, 200]

/-- Embedding of `generate_document_id` (src/function_app/search.py:18-20):
`str(uuid.uuid5(IMAGE_NAMESPACE, image_name))`.  The source reads no ambient
state, so the embedding needs no state argument. -/
def generate_document_id (image_name : String) : String :=
  uuid5 IMAGE_NAMESPACE_BYTES (utf8Bytes image_name)

/-! Enrichment pipeline (src/functions.py, src/function_app/function_app.py).
Outbound HTTP outcomes are injected as arguments: a `requests` exception is an
`Except.error`, a delivered response carries a status code and the optional
`vector` field of its JSON body. -/

/-- Response of the vectorization endpoint: HTTP status and the `vector`
field of the JSON body when present (other body content is irrelevant to the
source, which only calls `.get("vector", [])`). -/
structure VectorizeResp where
  status : Nat
  vectorField : Option (List Int)
deriving DecidableEq

/-- Result dict of `vectorize_image_embedding` (src/functions.py:98-103). -/
structure EmbedData where
  image_url : String
  vector : List Int
  model_version : String
  api_version : String
deriving DecidableEq

/-- Annotation payload produced by `analyze_image` (src/functions.py:146-178),
with the caption text/confidence and the four annotation sequences; geometry
(bounding boxes/polygons) and confidences are carried opaquely by the pipeline
and folded into the per-item payload strings of this model. -/
structure AnalysisData where
  caption : Option String
  confidence : Option Int
  dense_captions : List (String × Int)
  objects : List (String × Int)
  tags : List (String × Int)
  text : List String
deriving DecidableEq

/-- Combined result of `process_image_complete` (src/functions.py:198-210). -/
structure CompleteData where
  image_url : String
  vector_embedding : List Int
  model_version : String
  analysis : AnalysisData
deriving DecidableEq

/-- Embedding of `vectorize_image_embedding` (src/functions.py:60-110).
`endpoint`/`apiKey` are the `AZURE_AI_VISION_ENDPOINT`/`AZURE_AI_VISION_KEY`
environment variables; `resp` is the outcome of the `requests.post` call.
`response.raise_for_status()` raises exactly for status codes in `[400, 600)`;
a missing `vector` field defaults to the empty list via `.get("vector", [])`. -/
def vectorize_image_embedding (endpoint apiKey : Option String)
    (resp : Except String VectorizeResp) (image_url : String) :
    Except String EmbedData :=
  if pyFalsy endpoint || pyFalsy apiKey then
    .error "AZURE_AI_VISION_ENDPOINT and AZURE_AI_VISION_KEY environment variables must be set"
  else
    match resp with
    | .error e => .error e
    | .ok r =>
      if 400 ≤ r.status ∧ r.status < 600 then
        .error ("HTTP error " ++ toString r.status ++ " for url")
      else
        .ok { image_url := image_url, vector := r.vectorField.getD [],
              model_version := "2023-04-15", api_version := "2024-02-01" }

/-- Embedding of `get_image_analysis_client` (src/functions.py:15-26): fails
when either environment variable is unset or empty. -/
def get_image_analysis_client (endpoint apiKey : Option String) :
    Except String Unit :=
  if pyFalsy endpoint || pyFalsy apiKey then
    .error "AZURE_AI_VISION_ENDPOINT and AZURE_AI_VISION_KEY environment variables must be set"
  else .ok ()

/-- Embedding of `analyze_image` (src/functions.py:113-184): the outcome of
the SDK call is injected already in normalized shape (the source's
normalization maps the SDK response one-to-one onto `AnalysisData`); a raised
SDK error is logged and re-raised, i.e. propagated. -/
def analyze_image (result : Except String AnalysisData) :
    Except String AnalysisData :=
  result

/-- Embedding of `process_image_complete` (src/functions.py:187-216): run
`vectorize_image_embedding`, then construct the client, then run
`analyze_image`; any raised exception is logged and re-raised, so the first
failure propagates and aborts the whole enrichment. -/
def process_image_complete (endpoint apiKey : Option String)
    (embedResp : Except String VectorizeResp)
    (analysisResult : Except String AnalysisData) (image_url : String) :
    Except String CompleteData :=
  match vectorize_image_embedding endpoint apiKey embedResp image_url with
  | .error e => .error e
  | .ok vd =>
    match get_image_analysis_client endpoint apiKey with
    | .error e => .error e
    | .ok _ =>
      match analyze_image analysisResult with
      | .error e => .error e
      | .ok ad =>
        .ok { image_url := image_url, vector_embedding := vd.vector,
              model_version := vd.model_version, analysis := ad }

/-! Index documents (src/function_app/search.py).  A document is the ordered
field list the source builds; field values are strings or vectors. -/

/-- Value of an index-document field. -/
inductive SValue where
  | str (s : String)
  | vec (v : List Int)
deriving DecidableEq

/-- An index document: ordered field (name, value) pairs. -/
abbrev IndexDoc := List (String × SValue)

/-- Document built by `upload` (src/function_app/search.py:70-75): exactly
the fields `id`, `filename`, `url`, `vector_content`. -/
def upload_document (image_name url : String) (vector : List Int) : IndexDoc :=
  [("id", .str (generate_document_id image_name)),
   ("filename", .str image_name),
   ("url", .str url),
   ("vector_content", .vec vector)]

/-- Field lookup on a document, as the index store and the search SDK's
`result.get(field)` resolve a field name: first matching field, `none` when
the document has no such field. -/
def docGet (d : IndexDoc) (field : String) : Option SValue :=
  (d.find? (fun kv => kv.1 == field)).map (fun kv => kv.2)

/-- Fields selected by `search_similar_images`
(src/function_app/search.py:139). -/
def search_select_fields : List String := ["id", "image_name", "image_url"]

/-- Vector field named by the `VectorizedQuery` in `search_similar_images`
(src/function_app/search.py:132). -/
def vector_query_field : String := "vector"

/-- Hit dict built by `search_similar_images` (src/function_app/search.py:
146-151) from a returned document: each selected field is read with
`result.get`, absent fields yielding `None`. -/
def search_hit_of_doc (d : IndexDoc) : List (String × Option SValue) :=
  [("id", docGet d "id"), ("image_name", docGet d "image_name"),
   ("image_url", docGet d "image_url")]

/-- Modelled from the spec: the external index store's upsert semantics
(§3/§4.7, "last write wins, no duplicate rows for the same logical
resource") — the store itself is an external collaborator, not code of this
repository.  Upserting replaces every stored document whose `id` equals the
new document's `id`. -/
def upsertDoc (store : List IndexDoc) (d : IndexDoc) : List IndexDoc :=
  store.filter (fun x => decide (docGet x "id" ≠ docGet d "id")) ++ [d]

/-- Image name derived by `process_blob` (src/function_app/function_app.py:56):
`blob_url.split('/')[-1]`. -/
def image_name_of (blob_url : String) : String :=
  String.mk ((pySplitChar '/' blob_url.toList).getLastD [])

/-- Embedding of the event entry point `process_blob`
(src/function_app/function_app.py:14-81): skip non-creation events, parse the
subject (errors logged and swallowed), filter by extension, enrich (errors
logged and swallowed), then upload.  The result is the document handed to the
index writer, or `none` when the run writes nothing. -/
def process_blob (storage_account endpoint apiKey : Option String)
    (embedResp : Except String VectorizeResp)
    (analysisResult : Except String AnalysisData)
    (event_type subject : String) : Option IndexDoc :=
  if event_type ≠ "Microsoft.Storage.BlobCreated" then none
  else
    match extract_blob_url_from_subject storage_account subject with
    | .error _ => none
    | .ok blob_url =>
      if ¬ is_image_file blob_url then none
      else
        match process_image_complete endpoint apiKey embedResp analysisResult blob_url with
        | .error _ => none
        | .ok res =>
          some (upload_document (image_name_of blob_url) blob_url res.vector_embedding)

/-! Query entry point (src/function_app/function_app.py:84-137).  The parsed
request body is a Python object decoded from JSON; Python's `in` and
subscription operators raise `TypeError` on unsupported operand types, which
the endpoint's outer handler converts to a 500 response. -/

/-- A Python value decoded from a JSON request body. -/
inductive PyJson where
  | null
  | boolean (b : Bool)
  | num (n : Int)
  | str (s : String)
  | arr (l : List PyJson)
  | obj (kvs : List (String × PyJson))

/-- Outcome of `req.get_json()`: a `ValueError` for a missing or invalid JSON
body, or the decoded value. -/
inductive ReqBody where
  | invalidJson
  | parsed (j : PyJson)

/-- Whether the first list is a leading segment of the second. -/
def listStartsWith : List Char → List Char → Bool
  | [], _ => true
  | _ :: _, [] => false
  | a :: as, b :: bs => a == b && listStartsWith as bs

/-- Whether the first list occurs contiguously inside the second (Python
substring containment). -/
def listOccursIn (needle : List Char) : List Char → Bool
  | [] => needle.isEmpty
  | c :: cs => listStartsWith needle (c :: cs) || listOccursIn needle cs

/-- Model of Python `key in x` for a string key: dict keys, list membership
(a list element equals the string iff it is that string), substring test on
strings, and `TypeError` on null, booleans and numbers. -/
def pyContains (key : String) : PyJson → Except Unit Bool
  | .obj kvs => .ok (kvs.any (fun kv => kv.1 == key))
  | .arr l => .ok (l.any (fun x => match x with | .str s => s == key | _ => false))
  | .str s => .ok (listOccursIn key.toList s.toList)
  | _ => .error ()

/-- Model of Python `x[key]` for a string key: dict lookup (`KeyError` when
absent), `TypeError` on every other type. -/
def pyGetItem (key : String) : PyJson → Except Unit PyJson
  | .obj kvs =>
    match kvs.find? (fun kv => kv.1 == key) with
    | some kv => .ok kv.2
    | none => .error ()
  | _ => .error ()

/-- An HTTP response of the query endpoint: status code and body (error
bodies are plain strings; the success body is the serialized JSON object). -/
structure QueryResp where
  status : Nat
  body : PyJson

/-- Embedding of the query entry point `query_endpoint`
(src/function_app/function_app.py:86-137).  `embed` is the outcome of
`vectorize_text` for a given query value and `searchIndex` the (total,
internally error-swallowing) `search_similar_images`; the two returned flags
record whether the embedding call and the search call were made.  Any
exception reaching the outer handler yields a 500 response. -/
def query_endpoint (embed : PyJson → Except String (List Int))
    (searchIndex : List Int → List PyJson) (req : ReqBody) :
    QueryResp × Bool × Bool :=
  match req with
  | .invalidJson => (⟨400, .str "Invalid JSON in request body"⟩, false, false)
  | .parsed j =>
    match j with
    | .null => (⟨400, .str "Request body is required"⟩, false, false)
    | body =>
      match pyContains "query" body with
      | .error _ => (⟨500, .str "Internal server error"⟩, false, false)
      | .ok false =>
        (⟨400, .str "Missing required field query in request body"⟩, false, false)
      | .ok true =>
        match pyGetItem "query" body with
        | .error _ => (⟨500, .str "Internal server error"⟩, false, false)
        | .ok q =>
          match embed q with
          | .error _ => (⟨500, .str "Internal server error"⟩, true, false)
          | .ok vec =>
            (⟨200, .obj [("message", .str "Query received successfully"),
              ("query", q), ("similar_images", .arr (searchIndex vec))]⟩,
             true, true)

/-! Supporting lemmas about the Python string-splitting model. -/

/-- Splitting never yields the empty list of pieces. -/
theorem pySplitChar_ne_nil (sep : Char) : ∀ l : List Char, pySplitChar sep l ≠ []
  | [] => by simp [pySplitChar]
  | c :: cs => by
    unfold pySplitChar
    cases h : pySplitChar sep cs with
    | nil => simp
    | cons g gs => by_cases hc : c = sep <;> simp [hc]

/-- A list without the separator splits into itself. -/
theorem pySplitChar_not_mem {sep : Char} :
    ∀ {l : List Char}, sep ∉ l → pySplitChar sep l = [l]
  | [], _ => rfl
  | c :: cs, h => by
    have hc : c ≠ sep := fun hc => h (hc ▸ List.mem_cons_self c cs)
    have ih := pySplitChar_not_mem (fun hm => h (List.mem_cons_of_mem c hm))
    unfold pySplitChar
    rw [ih]
    simp [hc]

/-- A list containing the separator splits into at least two pieces. -/
theorem pySplitChar_two_le {sep : Char} :
    ∀ {l : List Char}, sep ∈ l → 2 ≤ (pySplitChar sep l).length
  | c :: cs, h => by
    unfold pySplitChar
    cases hs : pySplitChar sep cs with
    | nil => exact absurd hs (pySplitChar_ne_nil sep cs)
    | cons g gs =>
      by_cases hc : c = sep
      · simp [hc]
      · have hm : sep ∈ cs := by
          rcases List.mem_cons.1 h with h' | h'
          · exact absurd h'.symm hc
          · exact h'
        have h2 := pySplitChar_two_le hm
        rw [hs] at h2
        simpa [hc] using h2

/-- The default value of `getLastD` is irrelevant for a non-empty list. -/
theorem getLastD_of_ne_nil {α : Type} {l : List α} (h : l ≠ []) (d d' : α) :
    l.getLastD d = l.getLastD d' := by
  cases l with
  | nil => exact absurd rfl h
  | cons a as =>
    simp [List.getLastD_eq_getLast?, List.getLast?_eq_getLast (a :: as) (by simp)]

/-- The last piece of a split is the suffix of elements after the last
separator occurrence. -/
theorem pySplitChar_getLastD (sep : Char) : ∀ l : List Char,
    (pySplitChar sep l).getLastD [] = l.rtakeWhile (fun c => decide (c ≠ sep))
  | [] => by simp [pySplitChar, List.rtakeWhile]
  | c :: cs => by
    have ih := pySplitChar_getLastD sep cs
    have hrev : (c :: cs).reverse = cs.reverse ++ [c] := by simp
    unfold pySplitChar
    cases hs : pySplitChar sep cs with
    | nil => exact absurd hs (pySplitChar_ne_nil sep cs)
    | cons g gs =>
      rw [hs] at ih
      by_cases hm : sep ∈ cs
      · have hne : cs.reverse.takeWhile (fun x => decide (x ≠ sep)) ≠ cs.reverse := by
          intro heq
          have := List.takeWhile_eq_self_iff.1 heq sep (by simpa using hm)
          simp at this
        have hlen :
            ¬((cs.reverse.takeWhile (fun x => decide (x ≠ sep))).length
              = cs.reverse.length) := by
          intro hl
          exact hne ((List.takeWhile_prefix _).eq_of_length hl)
        have hrt : (c :: cs).rtakeWhile (fun x => decide (x ≠ sep))
            = cs.rtakeWhile (fun x => decide (x ≠ sep)) := by
          rw [List.rtakeWhile, hrev, List.takeWhile_append, if_neg hlen,
            List.rtakeWhile]
        rw [hrt, ← ih]
        by_cases hc : c = sep
        · simp only [if_pos hc, List.getLastD_cons]
        · simp only [if_neg hc, List.getLastD_cons]
          have hgs : gs ≠ [] := by
            have h2 := pySplitChar_two_le hm
            rw [hs] at h2
            intro h
            subst h
            simp at h2
          exact getLastD_of_ne_nil hgs (c :: g) g
      · have hall : cs.reverse.takeWhile (fun x => decide (x ≠ sep)) = cs.reverse :=
          List.takeWhile_eq_self_iff.2 (fun x hx => by
            simp only [decide_eq_true_eq]
            intro hxe
            exact hm (by simpa [hxe] using List.mem_reverse.1 hx))
        have hlen : (cs.reverse.takeWhile (fun x => decide (x ≠ sep))).length
            = cs.reverse.length := by rw [hall]
        have hone := pySplitChar_not_mem hm
        rw [hs] at hone
        injection hone with hg hgs
        subst hg
        subst hgs
        by_cases hc : c = sep
        · subst hc
          simp only [if_pos rfl]
          rw [List.rtakeWhile, hrev, List.takeWhile_append, if_pos hlen]
          have ht : List.takeWhile (fun x => decide (x ≠ c)) [c] = [] := by simp
          rw [ht]
          simp [List.getLastD_cons]
        · simp only [if_neg hc]
          rw [List.rtakeWhile, hrev, List.takeWhile_append, if_pos hlen]
          have ht : List.takeWhile (fun x => decide (x ≠ sep)) [c] = [c] := by
            simp [hc]
          rw [ht]
          simp [List.getLastD_cons]

/-- Packing a small code point and reading it back is the identity. -/
theorem char_toNat_ofNat_lt {n : Nat} (h : n < 55296) : (Char.ofNat n).toNat = n := by
  rw [Char.ofNat, dif_pos (Or.inl h)]
  rfl

/-- Lower-casing maps no character onto the dot and fixes the dot. -/
theorem toLower_eq_dot_iff (c : Char) : Char.toLower c = '.' ↔ c = '.' := by
  constructor
  · intro h
    rw [Char.toLower] at h
    split at h
    · rename_i hr
      have h46 : (Char.ofNat (c.toNat + 32)).toNat = c.toNat + 32 :=
        char_toNat_ofNat_lt (by omega)
      rw [h] at h46
      have : ('.').toNat = 46 := by decide
      omega
    · exact h
  · intro h
    subst h
    decide

/-- Lower-casing a character list first and splitting afterwards is splitting
first and lower-casing every piece. -/
theorem pySplitChar_map_toLower : ∀ l : List Char,
    pySplitChar '.' (l.map Char.toLower)
      = (pySplitChar '.' l).map (List.map Char.toLower)
  | [] => rfl
  | c :: cs => by
    have ih := pySplitChar_map_toLower cs
    simp only [List.map_cons]
    unfold pySplitChar
    cases hs : pySplitChar '.' cs with
    | nil => exact absurd hs (pySplitChar_ne_nil '.' cs)
    | cons g gs =>
      rw [hs] at ih
      rw [ih]
      simp only [List.map_cons]
      by_cases hc : c = '.'
      · have hlc : Char.toLower c = '.' := (toLower_eq_dot_iff c).2 hc
        simp [hc, hlc]
      · have hlc : Char.toLower c ≠ '.' := fun h => hc ((toLower_eq_dot_iff c).1 h)
        simp [hc, hlc]

/-- C6: `is_image_file` returns true exactly when the lower-cased substring
of the URL path after the last `.` is in the fixed extension set
jpg/jpeg/png/gif/bmp/webp/tiff/tif; a path without a `.` is never eligible,
and upper-case extensions such as `IMG.PNG` are eligible. -/
theorem is_image_file_matches_spec :
    (∀ url : String, is_image_file url = claim_is_eligible url) ∧
    is_image_file "https://acct.blob.core.windows.net/photos/IMG.PNG" = true ∧
    is_image_file "https://acct.blob.core.windows.net/photos/archive" = false := by
  refine ⟨?_, by decide, by decide⟩
  intro url
  simp only [is_image_file, claim_is_eligible, pyLower]
  by_cases hd : '.' ∈ urlparse_path url
  · rw [if_pos hd]
    have hchain : (pySplitChar '.' ((urlparse_path url).map Char.toLower)).getLastD []
        = ((urlparse_path url).rtakeWhile (fun c => decide (c ≠ '.'))).map Char.toLower := by
      rw [pySplitChar_map_toLower]
      have hm := List.getLastD_map (List.map Char.toLower)
        (pySplitChar '.' (urlparse_path url)) []
      simp only [List.map_nil] at hm
      rw [hm, pySplitChar_getLastD]
    rw [hchain]
    simp [hd]
  · rw [if_neg hd]
    simp [hd, image_extensions]

/-- C7: `generate_document_id` is deterministic — any two calls with the same
logical name yield identical output strings; the embedding takes no ambient
state because the source reads none (no environment, clock, counter or
randomness), so the output depends on the name alone. -/
theorem generate_document_id_deterministic :
    ∀ name1 name2 : String, name1 = name2 →
      generate_document_id name1 = generate_document_id name2 := by
  intro _ _ h
  rw [h]

/-- Witness for `generate_document_id_deterministic` at a concrete name. -/
theorem generate_document_id_deterministic_witness :
    generate_document_id "cat.jpg" = generate_document_id "cat.jpg" :=
  generate_document_id_deterministic "cat.jpg" "cat.jpg" rfl

/-- C9: documents written by `upload` carry exactly the fields `id`,
`filename`, `url`, `vector_content`, while `search_similar_images` selects
`id`, `image_name`, `image_url` and queries the field `vector`; hence on any
uploaded document the selected `image_name`/`image_url` fields and the
queried `vector` field are absent, and a hit built from such a document has
`id` populated but `image_name` and `image_url` absent. -/
theorem upload_fields_mismatch_search_fields :
    ∀ (image_name url : String) (vector : List Int),
      (upload_document image_name url vector).map Prod.fst
        = ["id", "filename", "url", "vector_content"] ∧
      search_select_fields = ["id", "image_name", "image_url"] ∧
      vector_query_field = "vector" ∧
      docGet (upload_document image_name url vector) "image_name" = none ∧
      docGet (upload_document image_name url vector) "image_url" = none ∧
      docGet (upload_document image_name url vector) "vector" = none ∧
      search_hit_of_doc (upload_document image_name url vector)
        = [("id", some (.str (generate_document_id image_name))),
           ("image_name", none), ("image_url", none)] := by
  intro n u v
  exact ⟨rfl, rfl, rfl, rfl, rfl, rfl, rfl⟩

/-- C4 counterexample: with configuration present and a successful HTTP
response whose JSON body has no `vector` field, the image-embedding call
succeeds with an empty vector instead of failing. -/
theorem vectorize_missing_vector_field_succeeds :
    vectorize_image_embedding (some "https://vision.example") (some "key0")
        (.ok ⟨200, none⟩) "https://acct.blob.core.windows.net/photos/cat.jpg"
      = .ok ⟨"https://acct.blob.core.windows.net/photos/cat.jpg", [],
             "2023-04-15", "2024-02-01"⟩ := by
  rfl

/-- C4 amended: the image-embedding call fails exactly when the endpoint or
key configuration is absent, the outbound request raises, or the HTTP status
is in the error range 400-599; a success response lacking a vector field does
not fail but yields a record with an empty vector. -/
theorem vectorize_image_embedding_error_iff :
    ∀ (endpoint apiKey : Option String) (resp : Except String VectorizeResp)
      (url : String),
      (exceptOk (vectorize_image_embedding endpoint apiKey resp url) = false ↔
        (pyFalsy endpoint || pyFalsy apiKey) = true ∨ (∃ e, resp = .error e) ∨
        (∃ r, resp = .ok r ∧ 400 ≤ r.status ∧ r.status < 600)) ∧
      ((pyFalsy endpoint || pyFalsy apiKey) = false →
        ∀ status : Nat, ¬(400 ≤ status ∧ status < 600) →
          vectorize_image_embedding endpoint apiKey (.ok ⟨status, none⟩) url
            = .ok ⟨url, [], "2023-04-15", "2024-02-01"⟩) := by
  intro ep key resp url
  constructor
  · cases hf : (pyFalsy ep || pyFalsy key) with
    | true => simp [vectorize_image_embedding, hf, exceptOk]
    | false =>
      cases resp with
      | error e => simp [vectorize_image_embedding, hf, exceptOk]
      | ok r =>
        by_cases hs : 400 ≤ r.status ∧ r.status < 600
        · simp [vectorize_image_embedding, hf, hs, exceptOk]
        · simp [vectorize_image_embedding, hf, hs, exceptOk]
  · intro hf status hs
    simp [vectorize_image_embedding, hf, hs]

/-- Witness for `vectorize_image_embedding_error_iff`: absent configuration
fails, and a success response without a vector field yields the empty
vector. -/
theorem vectorize_image_embedding_error_iff_witness :
    exceptOk (vectorize_image_embedding none none
        (.ok ⟨200, none⟩) "https://a.example/x.png") = false ∧
    vectorize_image_embedding (some "https://vision.example") (some "key0")
        (.ok ⟨200, none⟩) "https://a.example/x.png"
      = .ok ⟨"https://a.example/x.png", [], "2023-04-15", "2024-02-01"⟩ :=
  ⟨(vectorize_image_embedding_error_iff none none (.ok ⟨200, none⟩)
      "https://a.example/x.png").1.mpr (Or.inl (by decide)),
   (vectorize_image_embedding_error_iff (some "https://vision.example")
      (some "key0") (.ok ⟨200, none⟩) "https://a.example/x.png").2 (by decide)
      200 (by omega)⟩

/-- An annotation bundle for concrete test inputs. -/
def sample_analysis : AnalysisData :=
  ⟨some "a cat lying on a sofa", some 95, [("a cat", 95)], [("cat", 95)],
   [("cat", 95), ("sofa", 80)], []⟩

/-- C1 counterexample: with configuration present, a failing embedding call
and a successful analysis call, `process_image_complete` propagates the
embedding failure instead of returning an embedding-absent record with the
annotations present. -/
theorem process_image_complete_embedding_failure_aborts :
    process_image_complete (some "https://vision.example") (some "key0")
        (.error "embedding service down") (.ok sample_analysis)
        "https://acct.blob.core.windows.net/photos/cat.jpg"
      = .error "embedding service down" := rfl

/-- C1 amended: `process_image_complete` returns a record exactly when both
the embedding call and the analysis call succeed; either single failure makes
the whole enrichment fail with the raised error, rather than producing a
partially populated record. -/
theorem process_image_complete_ok_iff :
    ∀ (endpoint apiKey : Option String) (embedResp : Except String VectorizeResp)
      (analysisResult : Except String AnalysisData) (url : String),
      exceptOk (process_image_complete endpoint apiKey embedResp analysisResult url)
          = true ↔
        exceptOk (vectorize_image_embedding endpoint apiKey embedResp url) = true ∧
        exceptOk analysisResult = true := by
  intro ep key er ar url
  unfold process_image_complete
  cases hv : vectorize_image_embedding ep key er url with
  | error e => simp [exceptOk]
  | ok vd =>
    have hf : (pyFalsy ep || pyFalsy key) = false := by
      cases hf' : (pyFalsy ep || pyFalsy key) with
      | false => rfl
      | true =>
        unfold vectorize_image_embedding at hv
        rw [hf'] at hv
        simp at hv
    unfold get_image_analysis_client
    rw [hf]
    cases ar <;> simp [analyze_image, exceptOk]

/-- Witness for `process_image_complete_ok_iff`: both calls succeeding yields
a successful enrichment. -/
theorem process_image_complete_ok_iff_witness :
    exceptOk (process_image_complete (some "https://vision.example") (some "key0")
        (.ok ⟨200, some [1, 2]⟩) (.ok sample_analysis)
        "https://acct.blob.core.windows.net/photos/cat.jpg") = true :=
  (process_image_complete_ok_iff (some "https://vision.example") (some "key0")
      (.ok ⟨200, some [1, 2]⟩) (.ok sample_analysis)
      "https://acct.blob.core.windows.net/photos/cat.jpg").mpr ⟨rfl, rfl⟩

/-- Helper: an analysis failure always fails the whole enrichment. -/
theorem process_image_complete_analysis_error (endpoint apiKey : Option String)
    (embedResp : Except String VectorizeResp) (e : String) (url : String) :
    exceptOk (process_image_complete endpoint apiKey embedResp (.error e) url)
      = false := by
  unfold process_image_complete
  cases vectorize_image_embedding endpoint apiKey embedResp url with
  | error e' => rfl
  | ok vd =>
    cases get_image_analysis_client endpoint apiKey with
    | error e' => rfl
    | ok u => rfl

/-- C2 counterexample: for an eligible blob-created event where the embedding
call succeeds with vector `[1, 2, 3]` and the analysis call fails, the
pipeline writes no document at all. -/
theorem process_blob_analysis_failure_writes_nothing :
    process_blob (some "acct") (some "https://vision.example") (some "key0")
        (.ok ⟨200, some [1, 2, 3]⟩) (.error "analysis service down")
        "Microsoft.Storage.BlobCreated"
        "/blobServices/default/containers/photos/blobs/cat.jpg" = none := by
  rfl

/-- C2 amended: whenever the analysis call fails, `process_blob` writes no
IndexDocument — the enrichment failure aborts the run before the index
writer is reached, even when the embedding call succeeded. -/
theorem process_blob_analysis_failure :
    ∀ (storage endpoint apiKey : Option String)
      (embedResp : Except String VectorizeResp) (e event_type subject : String),
      process_blob storage endpoint apiKey embedResp (.error e) event_type subject
        = none := by
  intro st ep key er e et subj
  unfold process_blob
  by_cases he : et ≠ "Microsoft.Storage.BlobCreated"
  · rw [if_pos he]
  · rw [if_neg he]
    cases extract_blob_url_from_subject st subj with
    | error _ => rfl
    | ok url =>
      by_cases hi : is_image_file url = true
      · obtain ⟨e', he'⟩ :
            ∃ e', process_image_complete ep key er (.error e) url = .error e' := by
          cases hp : process_image_complete ep key er (.error e) url with
          | error x => exact ⟨x, rfl⟩
          | ok res =>
            have h2 := process_image_complete_analysis_error ep key er e url
            rw [hp] at h2
            simp [exceptOk] at h2
        simp [hi, he']
      · simp [hi]

/-- C10: the pipeline derives the document name as the substring after the
last `/` of the blob URL, so two distinct blob URLs with the same final
segment produce the same document id, and upserting the later document
removes the earlier one from the store (last write wins). -/
theorem same_filename_overwrites :
    ∀ (u1 u2 : String) (v1 v2 : List Int) (store : List IndexDoc),
      u1 ≠ u2 → image_name_of u1 = image_name_of u2 →
      docGet (upload_document (image_name_of u1) u1 v1) "id"
        = docGet (upload_document (image_name_of u2) u2 v2) "id" ∧
      upload_document (image_name_of u1) u1 v1
        ∉ upsertDoc (upsertDoc store (upload_document (image_name_of u1) u1 v1))
            (upload_document (image_name_of u2) u2 v2) ∧
      upload_document (image_name_of u2) u2 v2
        ∈ upsertDoc (upsertDoc store (upload_document (image_name_of u1) u1 v1))
            (upload_document (image_name_of u2) u2 v2) := by
  intro u1 u2 v1 v2 store hne hname
  have hid : docGet (upload_document (image_name_of u1) u1 v1) "id"
      = docGet (upload_document (image_name_of u2) u2 v2) "id" := by
    show some (SValue.str (generate_document_id (image_name_of u1)))
        = some (SValue.str (generate_document_id (image_name_of u2)))
    rw [hname]
  refine ⟨hid, ?_, ?_⟩
  · intro hmem
    unfold upsertDoc at hmem
    rcases List.mem_append.1 hmem with h | h
    · have hpred := (List.mem_filter.1 h).2
      simp only [decide_eq_true_eq] at hpred
      exact hpred hid
    · have hd : upload_document (image_name_of u1) u1 v1
          = upload_document (image_name_of u2) u2 v2 := by simpa using h
      have hurl : some (SValue.str u1) = some (SValue.str u2) :=
        congrArg (fun d => docGet d "url") hd
      simp only [Option.some.injEq, SValue.str.injEq] at hurl
      exact hne hurl
  · unfold upsertDoc
    exact List.mem_append.2 (Or.inr (by simp))

/-- Witness for `same_filename_overwrites`: the same file name `cat.jpg` in
two different containers. -/
theorem same_filename_overwrites_witness :
    ("https://acct.blob.core.windows.net/c1/cat.jpg" : String)
        ≠ "https://acct.blob.core.windows.net/c2/cat.jpg" ∧
    image_name_of "https://acct.blob.core.windows.net/c1/cat.jpg"
        = image_name_of "https://acct.blob.core.windows.net/c2/cat.jpg" ∧
    (docGet (upload_document
        (image_name_of "https://acct.blob.core.windows.net/c1/cat.jpg")
        "https://acct.blob.core.windows.net/c1/cat.jpg" [1]) "id"
      = docGet (upload_document
        (image_name_of "https://acct.blob.core.windows.net/c2/cat.jpg")
        "https://acct.blob.core.windows.net/c2/cat.jpg" [2]) "id" ∧
    upload_document (image_name_of "https://acct.blob.core.windows.net/c1/cat.jpg")
        "https://acct.blob.core.windows.net/c1/cat.jpg" [1]
      ∉ upsertDoc (upsertDoc []
          (upload_document (image_name_of "https://acct.blob.core.windows.net/c1/cat.jpg")
            "https://acct.blob.core.windows.net/c1/cat.jpg" [1]))
          (upload_document (image_name_of "https://acct.blob.core.windows.net/c2/cat.jpg")
            "https://acct.blob.core.windows.net/c2/cat.jpg" [2]) ∧
    upload_document (image_name_of "https://acct.blob.core.windows.net/c2/cat.jpg")
        "https://acct.blob.core.windows.net/c2/cat.jpg" [2]
      ∈ upsertDoc (upsertDoc []
          (upload_document (image_name_of "https://acct.blob.core.windows.net/c1/cat.jpg")
            "https://acct.blob.core.windows.net/c1/cat.jpg" [1]))
          (upload_document (image_name_of "https://acct.blob.core.windows.net/c2/cat.jpg")
            "https://acct.blob.core.windows.net/c2/cat.jpg" [2])) :=
  ⟨by decide, by decide,
   same_filename_overwrites "https://acct.blob.core.windows.net/c1/cat.jpg"
     "https://acct.blob.core.windows.net/c2/cat.jpg" [1] [2] []
     (by decide) (by decide)⟩

/-- C3 counterexample: the subject `containers/c/blobs/b` is non-empty, both
tokens occur among its slash-delimited segments and neither is the last
segment, yet parsing fails, because the source additionally rejects any
subject with fewer than six segments. -/
theorem extract_short_subject_rejected :
    "containers/c/blobs/b" ≠ "" ∧
    "containers".toList ∈ pySplitChar '/' "containers/c/blobs/b".toList ∧
    "blobs".toList ∈ pySplitChar '/' "containers/c/blobs/b".toList ∧
    pyIndex "containers".toList (pySplitChar '/' "containers/c/blobs/b".toList) + 1
      < (pySplitChar '/' "containers/c/blobs/b".toList).length ∧
    pyIndex "blobs".toList (pySplitChar '/' "containers/c/blobs/b".toList) + 1
      < (pySplitChar '/' "containers/c/blobs/b".toList).length ∧
    exceptOk (extract_blob_url_from_subject (some "acct") "containers/c/blobs/b")
      = false := by
  decide

/-- C3 amended: with the storage-account configuration present, parsing
succeeds exactly when the subject is non-empty, has at least six
slash-delimited segments, contains both literal tokens, and the segment after
the first occurrence of each token exists. -/
theorem extract_blob_url_ok_iff :
    ∀ (storage : Option String) (subject : String),
      pyFalsy storage = false →
      (exceptOk (extract_blob_url_from_subject storage subject) = true ↔
        subject ≠ "" ∧
        6 ≤ (pySplitChar '/' subject.toList).length ∧
        "containers".toList ∈ pySplitChar '/' subject.toList ∧
        "blobs".toList ∈ pySplitChar '/' subject.toList ∧
        pyIndex "containers".toList (pySplitChar '/' subject.toList) + 1
          < (pySplitChar '/' subject.toList).length ∧
        pyIndex "blobs".toList (pySplitChar '/' subject.toList) + 1
          < (pySplitChar '/' subject.toList).length) := by
  intro st subj hst
  simp only [extract_blob_url_from_subject]
  by_cases hs : subj = ""
  · simp [hs, exceptOk]
  · rw [if_neg hs]
    by_cases h6 : (pySplitChar '/' subj.toList).length < 6 ∨
        "containers".toList ∉ pySplitChar '/' subj.toList ∨
        "blobs".toList ∉ pySplitChar '/' subj.toList
    · rw [if_pos h6]
      simp only [exceptOk, Bool.false_eq_true, false_iff]
      intro hc
      rcases h6 with h | h | h
      · have h2 := hc.2.1
        omega
      · exact h hc.2.2.1
      · exact h hc.2.2.2.1
    · rw [if_neg h6]
      push_neg at h6
      by_cases hidx : (pySplitChar '/' subj.toList).length ≤
          pyIndex "containers".toList (pySplitChar '/' subj.toList) + 1 ∨
          (pySplitChar '/' subj.toList).length ≤
          pyIndex "blobs".toList (pySplitChar '/' subj.toList) + 1
      · rw [if_pos hidx]
        simp only [exceptOk, Bool.false_eq_true, false_iff]
        intro hc
        rcases hidx with h | h
        · have h2 := hc.2.2.2.2.1
          omega
        · have h2 := hc.2.2.2.2.2
          omega
      · rw [if_neg hidx]
        push_neg at hidx
        simp only [hst, Bool.false_eq_true, if_false, exceptOk, true_iff]
        exact ⟨hs, h6.1, h6.2.1, h6.2.2, hidx.1, hidx.2⟩

/-- Witness for `extract_blob_url_ok_iff` at the specification's example
subject. -/
theorem extract_blob_url_ok_iff_witness :
    pyFalsy (some "acct") = false ∧
    exceptOk (extract_blob_url_from_subject (some "acct")
      "/blobServices/default/containers/photos/blobs/2024/cat.jpg") = true :=
  ⟨by decide,
   (extract_blob_url_ok_iff (some "acct")
     "/blobServices/default/containers/photos/blobs/2024/cat.jpg"
     (by decide)).mpr (by decide)⟩

/-- Positional lookup past an appended prefix. -/
theorem getD_append_add {α : Type} (l₁ l₂ : List α) (n : Nat) (d : α) :
    (l₁ ++ l₂).getD (l₁.length + n) d = l₂.getD n d := by
  induction l₁ with
  | nil => simp
  | cons a as ih =>
    have hn : as.length + 1 + n = (as.length + n) + 1 := by omega
    simp only [List.cons_append, List.length_cons, hn, List.getD_cons_succ]
    exact ih

/-- Dropping past an appended prefix. -/
theorem drop_append_add {α : Type} (l₁ l₂ : List α) (n : Nat) :
    (l₁ ++ l₂).drop (l₁.length + n) = l₂.drop n := by
  induction l₁ with
  | nil => simp
  | cons a as ih =>
    have hn : as.length + 1 + n = (as.length + n) + 1 := by omega
    simp only [List.cons_append, List.length_cons, hn, List.drop_succ_cons]
    exact ih

/-- First-occurrence index past a prefix that lacks the element. -/
theorem pyIndex_append {α : Type} [DecidableEq α] (a : α) (l₁ l₂ : List α)
    (h : a ∉ l₁) : pyIndex a (l₁ ++ l₂) = l₁.length + pyIndex a l₂ := by
  induction l₁ with
  | nil => simp
  | cons x xs ih =>
    have hx : x ≠ a := fun he => h (he ▸ List.mem_cons_self x xs)
    have hm : a ∉ xs := fun hm => h (List.mem_cons_of_mem x hm)
    have step : pyIndex a ((x :: xs) ++ l₂) = pyIndex a (xs ++ l₂) + 1 := by
      show pyIndex a (x :: (xs ++ l₂)) = _
      simp [pyIndex, hx]
    rw [step, ih hm, List.length_cons]
    omega

/-- C5: for every valid subject whose slash-delimited segments are a
non-empty prefix (free of the two tokens) followed by
`containers, C, blobs, B1, B2`, parsing returns exactly
`https://{acct}.blob.core.windows.net/C/B1/B2`, preserving the internal
slash of the object name verbatim; the embedding is a pure function of the
subject and configuration, performing no network call. -/
theorem extract_valid_subject_url :
    ∀ (acct subject : String) (pre : List (List Char)) (c b1 b2 : List Char),
      acct ≠ "" → pre ≠ [] →
      "containers".toList ∉ pre → "blobs".toList ∉ pre →
      c ≠ "blobs".toList →
      pySplitChar '/' subject.toList
        = pre ++ ["containers".toList, c, "blobs".toList, b1, b2] →
      extract_blob_url_from_subject (some acct) subject
        = .ok ("https://" ++ acct ++ ".blob.core.windows.net/"
            ++ String.mk c ++ "/" ++ String.mk (b1 ++ '/' :: b2)) := by
  intro acct subject pre c b1 b2 hacct hpre hcpre hbpre hcb hsplit
  have hplen : 0 < pre.length := List.length_pos.2 hpre
  have hsub : subject ≠ "" := by
    intro h
    subst h
    have hnil : pySplitChar '/' ("" : String).toList = [[]] := rfl
    rw [hnil] at hsplit
    have hlen := congrArg List.length hsplit
    simp at hlen
  have hlen : (pySplitChar '/' subject.toList).length = pre.length + 5 := by
    rw [hsplit]
    simp
  have hcidx : pyIndex "containers".toList (pySplitChar '/' subject.toList)
      = pre.length := by
    rw [hsplit, pyIndex_append _ _ _ hcpre]
    simp [pyIndex]
  have hbidx : pyIndex "blobs".toList (pySplitChar '/' subject.toList)
      = pre.length + 2 := by
    rw [hsplit]
    have hassoc : pre ++ ["containers".toList, c, "blobs".toList, b1, b2]
        = (pre ++ ["containers".toList, c]) ++ ("blobs".toList :: [b1, b2]) := by
      simp
    have hnm : "blobs".toList ∉ pre ++ ["containers".toList, c] := by
      intro hm
      rcases List.mem_append.1 hm with h | h
      · exact hbpre h
      · rcases List.mem_cons.1 h with h | h
        · exact absurd h (by decide)
        · rcases List.mem_cons.1 h with h | h
          · exact hcb h.symm
          · simp at h
    rw [hassoc, pyIndex_append _ _ _ hnm]
    simp [pyIndex]
  have hcmem : "containers".toList ∈ pySplitChar '/' subject.toList := by
    rw [hsplit]
    simp
  have hbmem : "blobs".toList ∈ pySplitChar '/' subject.toList := by
    rw [hsplit]
    simp
  simp only [extract_blob_url_from_subject]
  rw [if_neg hsub]
  have hc1 : ¬((pySplitChar '/' subject.toList).length < 6 ∨
      "containers".toList ∉ pySplitChar '/' subject.toList ∨
      "blobs".toList ∉ pySplitChar '/' subject.toList) := by
    push_neg
    exact ⟨by omega, hcmem, hbmem⟩
  rw [if_neg hc1]
  have hc2 : ¬((pySplitChar '/' subject.toList).length ≤
      pyIndex "containers".toList (pySplitChar '/' subject.toList) + 1 ∨
      (pySplitChar '/' subject.toList).length ≤
      pyIndex "blobs".toList (pySplitChar '/' subject.toList) + 1) := by
    push_neg
    rw [hcidx, hbidx, hlen]
    exact ⟨by omega, by omega⟩
  rw [if_neg hc2]
  have hfal : pyFalsy (some acct) = false := by simp [pyFalsy, hacct]
  simp only [hfal, Bool.false_eq_true, if_false]
  have hgetD : (pySplitChar '/' subject.toList).getD
      (pyIndex "containers".toList (pySplitChar '/' subject.toList) + 1) [] = c := by
    rw [hcidx, hsplit]
    have h2 := getD_append_add pre
      ["containers".toList, c, "blobs".toList, b1, b2] 1 []
    simpa using h2
  have hdrop : (pySplitChar '/' subject.toList).drop
      (pyIndex "blobs".toList (pySplitChar '/' subject.toList) + 1) = [b1, b2] := by
    rw [hbidx, hsplit]
    have h2 := drop_append_add pre
      ["containers".toList, c, "blobs".toList, b1, b2] 3
    rw [show List.drop 3 ["containers".toList, c, "blobs".toList, b1, b2]
      = [b1, b2] from rfl] at h2
    exact h2
  rw [hgetD, hdrop]
  rfl

/-- Witness for `extract_valid_subject_url` at the specification's example
subject (nested blob name `2024/cat.jpg`). -/
theorem extract_valid_subject_url_witness :
    extract_blob_url_from_subject (some "acct")
        "/blobServices/default/containers/photos/blobs/2024/cat.jpg"
      = .ok ("https://" ++ "acct" ++ ".blob.core.windows.net/"
          ++ String.mk "photos".toList ++ "/"
          ++ String.mk ("2024".toList ++ '/' :: "cat.jpg".toList)) :=
  extract_valid_subject_url "acct"
    "/blobServices/default/containers/photos/blobs/2024/cat.jpg"
    [[], "blobServices".toList, "default".toList]
    "photos".toList "2024".toList "cat.jpg".toList
    (by decide) (by decide) (by decide) (by decide) (by decide) (by decide)

/-- C8 counterexample: a valid JSON body that is the bare number 42 lacks the
`query` key, yet the endpoint answers 500 (the membership test raises
`TypeError`, caught by the generic handler) instead of a client error; no
embedding or search call is made. -/
theorem query_endpoint_number_body_returns_500 :
    query_endpoint (fun _ => .ok []) (fun _ => []) (.parsed (.num 42))
      = (⟨500, .str "Internal server error"⟩, false, false) := rfl

/-- C8 amended: a missing or invalid JSON body and a null body yield 400 with
a descriptive message, and a JSON-object body lacking the `query` key yields
400 naming the field, with no embedding or search call made; however a body
that is a bare number or boolean yields 500, not a client error, because the
membership test raises. -/
theorem query_endpoint_client_errors :
    ∀ (embed : PyJson → Except String (List Int))
      (searchIndex : List Int → List PyJson),
      (query_endpoint embed searchIndex .invalidJson
        = (⟨400, .str "Invalid JSON in request body"⟩, false, false)) ∧
      (query_endpoint embed searchIndex (.parsed .null)
        = (⟨400, .str "Request body is required"⟩, false, false)) ∧
      (∀ kvs : List (String × PyJson), (∀ kv ∈ kvs, kv.1 ≠ "query") →
        query_endpoint embed searchIndex (.parsed (.obj kvs))
          = (⟨400, .str "Missing required field query in request body"⟩,
             false, false)) ∧
      (∀ n : Int, query_endpoint embed searchIndex (.parsed (.num n))
        = (⟨500, .str "Internal server error"⟩, false, false)) ∧
      (∀ b : Bool, query_endpoint embed searchIndex (.parsed (.boolean b))
        = (⟨500, .str "Internal server error"⟩, false, false)) := by
  intro embed searchIndex
  refine ⟨rfl, rfl, ?_, fun n => rfl, fun b => rfl⟩
  intro kvs hk
  have hfind : kvs.any (fun kv => kv.1 == "query") = false := by
    rw [List.any_eq_false]
    intro kv hkv
    simpa using hk kv hkv
  simp [query_endpoint, pyContains, hfind]

/-- Witness for `query_endpoint_client_errors` at an object body without the
`query` key. -/
theorem query_endpoint_client_errors_witness :
    query_endpoint (fun _ => .ok []) (fun _ => []) (.parsed (.obj [("text", .str "x")]))
      = (⟨400, .str "Missing required field query in request body"⟩,
         false, false) :=
  (query_endpoint_client_errors (fun _ => .ok []) (fun _ => [])).2.2.1
    [("text", .str "x")] (by simp)

end ImageSearch
